import Mathlib

/-
Verification of the limit order book in obook.py.

Shallow embedding notes:
  - Prices, quantities and timestamps are integers.  The Python code performs
    no arithmetic on prices other than negation and comparisons, so any linear
    order models them faithfully; all concrete inputs in the claims are integral.
  - The Python dicts are defaultdict(deque); they are modelled as association
    lists.  Reading a missing key through getDefault appends an empty level,
    mirroring the defaultdict side effect (Python dicts keep insertion order
    for keys, and a freshly created key goes to the end).
  - uuid generation and wall-clock timestamps are external nondeterminism; the
    operations take the order id and the timestamp as parameters, as the spec
    prescribes for collaborators.
  - The matching loops are modelled with explicit fuel: the loop body runs at
    most fuel times; none means the loop did not finish within fuel steps, so
    nontermination of the Python loop shows up as: for all fuel the result is
    none.
-/

structure Order where
  id : String
  side : String
  price : Option Int
  qty : Int
  timestamp : Int
deriving DecidableEq

structure Trade where
  buy_id : String
  sell_id : String
  price : Int
  qty : Int
  timestamp : Int
deriving DecidableEq

abbrev Level := List Order

abbrev PriceMap := List (Int × Level)

def lookupLevel : PriceMap → Int → Option Level
  | [], _ => none
  | (q, w) :: rest, p => if q = p then some w else lookupLevel rest p

/-- Reading map[p] on a defaultdict: returns the stored level, or creates an
empty one (appended at the end, as Python dicts append new keys). -/
def getDefault (m : PriceMap) (p : Int) : Level × PriceMap :=
  match lookupLevel m p with
  | some w => (w, m)
  | none => ([], m ++ [(p, [])])

/-- Assignment map[p] = v of a Python dict: overwrite in place if the key
exists, otherwise append the new key. -/
def setVal : PriceMap → Int → Level → PriceMap
  | [], p, v => [(p, v)]
  | (q, w) :: rest, p, v => if q = p then (p, v) :: rest else (q, w) :: setVal rest p v

/-- del map[p] of a Python dict (keys are unique by construction). -/
def eraseKey : PriceMap → Int → PriceMap
  | [], _ => []
  | (q, w) :: rest, p => if q = p then rest else (q, w) :: eraseKey rest p

def sumQty (l : Level) : Int := (l.map Order.qty).sum

/-- Binary search of CPython bisect_left: this is the exact loop, not the
specification "count of smaller elements"; the two differ on lists that are
not ascending, and obook.py does call it on the descending bids list.  The
first argument bounds the iteration count so the recursion is structural:
every iteration shrinks hi - lo by at least one, so starting the bound at
hi - lo the loop always exits through the lo < hi test, never through the
bound. -/
def bisectLeftGo (a : List Int) (x : Int) : Nat → Nat → Nat → Nat
  | 0, lo, _ => lo
  | steps + 1, lo, hi =>
    if lo < hi then
      if a.getD ((lo + hi) / 2) 0 < x then
        bisectLeftGo a x steps ((lo + hi) / 2 + 1) hi
      else
        bisectLeftGo a x steps lo ((lo + hi) / 2)
    else lo

def bisectLeft (a : List Int) (x : Int) : Nat := bisectLeftGo a x a.length 0 a.length

/-- Python list.insert(i, a) (i is clamped to the list length). -/
def insertAt (l : List α) (i : Nat) (a : α) : List α := l.take i ++ a :: l.drop i

/-- Python list.pop(i) for a valid index i. -/
def eraseAt (l : List α) (i : Nat) : List α := l.take i ++ l.drop (i + 1)

/-- OrderBook._insert_price: insert preserving sort order unless present;
the descending variant searches the negated list. -/
def insertPrice (l : List Int) (p : Int) (descending : Bool) : List Int :=
  if descending then
    let i := bisectLeft (l.map (fun q => -q)) (-p)
    if i = l.length ∨ ¬ l.getD i 0 = p then insertAt l i p else l
  else
    let i := bisectLeft l p
    if i = l.length ∨ ¬ l.getD i 0 = p then insertAt l i p else l

/-- The price-list part of OrderBook._remove_price_if_empty: pop the price
only when bisect_left lands on it. -/
def removeFromList (l : List Int) (p : Int) : List Int :=
  let i := bisectLeft l p
  if i < l.length ∧ l.getD i 0 = p then eraseAt l i else l

/-- OrderBook._remove_price_if_empty.  The defaultdict read creates the key
when absent; the empty check then deletes it again, so the net effect on the
map is erasure of an empty level.  The price-list removal is the buggy
bisect-based one. -/
def removePriceIfEmpty (m : PriceMap) (l : List Int) (p : Int) : PriceMap × List Int :=
  let r := getDefault m p
  if r.1 = [] then (eraseKey r.2 p, removeFromList l p) else (r.2, l)

/-- The inner while loop shared by the four matching helpers: drain the FIFO
level against the incoming residual qty.  mk builds the trade from the
matched quantity and the resting (maker) order.  In the branch where the
reduced head stays, min qty top.qty < top.qty forces the new incoming
residual to be zero, so the Python loop exits right after that fill. -/
def drainLevel (mk : Int → Order → Trade) : Int → List Order → Int × List Order × List Trade
  | qty, [] => (qty, [], [])
  | qty, top :: rest =>
    if 0 < qty then
      let tq := min qty top.qty
      let t := mk tq top
      if top.qty - tq = 0 then
        let r := drainLevel mk (qty - tq) rest
        (r.1, r.2.1, t :: r.2.2)
      else
        (qty - tq, { top with qty := top.qty - tq } :: rest, [t])
    else (qty, top :: rest, [])

/-- Crossing test on the head of the opposing price list (false when empty,
matching the "and self.xxx_prices" guard). -/
def crossHead (cross : Int → Bool) : List Int → Bool
  | [] => false
  | p :: _ => cross p

/-- The outer while loop shared by the four matching helpers, with explicit
fuel.  Each iteration drains the level at the best opposing price, writes the
level back, appends the new trades and removes the price if its level
emptied.  none means the loop did not exit within fuel iterations. -/
def matchLoopGo (cross : Int → Bool) (mk : Int → Int → Order → Trade) :
    Nat → Int → PriceMap → List Int → List Trade → Option (Int × PriceMap × List Int × List Trade)
  | 0, qty, m, l, tr =>
    if 0 < qty ∧ crossHead cross l = true then none else some (qty, m, l, tr)
  | fuel + 1, qty, m, l, tr =>
    if 0 < qty ∧ crossHead cross l = true then
      let best := l.headD 0
      let g := getDefault m best
      let d := drainLevel (mk best) qty g.1
      let m2 := setVal g.2 best d.2.1
      let rm := removePriceIfEmpty m2 l best
      matchLoopGo cross mk fuel d.1 rm.1 rm.2 (tr ++ d.2.2)
    else some (qty, m, l, tr)

structure Book where
  bids : PriceMap
  asks : PriceMap
  bids_prices : List Int
  asks_prices : List Int
  trades : List Trade
deriving DecidableEq

def emptyBook : Book := { bids := [], asks := [], bids_prices := [], asks_prices := [], trades := [] }

/-- Trade built when the incoming order is the buyer: the resting maker is
the seller, at the maker price (the level price bp). -/
def mkBuyTrade (oid : String) (ts : Int) : Int → Int → Order → Trade :=
  fun bp tq top => { buy_id := oid, sell_id := top.id, price := bp, qty := tq, timestamp := ts }

/-- Trade built when the incoming order is the seller. -/
def mkSellTrade (oid : String) (ts : Int) : Int → Int → Order → Trade :=
  fun bp tq top => { buy_id := top.id, sell_id := oid, price := bp, qty := tq, timestamp := ts }

/-- OrderBook._match_buy_limit: buy limit matches best asks while
ask price is at most the limit price. -/
def matchBuyLimit (oid : String) (price qty : Int) (ts : Int) (fuel : Nat) (b : Book) :
    Option (Int × PriceMap × List Int × List Trade) :=
  matchLoopGo (fun bp => decide (bp ≤ price)) (mkBuyTrade oid ts)
    fuel qty b.asks b.asks_prices b.trades

/-- OrderBook._match_sell_limit: sell limit matches best bids while
bid price is at least the limit price. -/
def matchSellLimit (oid : String) (price qty : Int) (ts : Int) (fuel : Nat) (b : Book) :
    Option (Int × PriceMap × List Int × List Trade) :=
  matchLoopGo (fun bp => decide (price ≤ bp)) (mkSellTrade oid ts)
    fuel qty b.bids b.bids_prices b.trades

/-- OrderBook._match_buy_market: consume asks from cheapest upwards with an
unconditional crossing predicate. -/
def matchBuyMarket (oid : String) (qty : Int) (ts : Int) (fuel : Nat) (b : Book) :
    Option (Int × PriceMap × List Int × List Trade) :=
  matchLoopGo (fun _ => true) (mkBuyTrade oid ts)
    fuel qty b.asks b.asks_prices b.trades

/-- OrderBook._match_sell_market: consume bids from highest downwards. -/
def matchSellMarket (oid : String) (qty : Int) (ts : Int) (fuel : Nat) (b : Book) :
    Option (Int × PriceMap × List Int × List Trade) :=
  matchLoopGo (fun _ => true) (mkSellTrade oid ts)
    fuel qty b.bids b.bids_prices b.trades

/-- OrderBook.add_limit_order.  Faithful to a quirk of the source: the
matching helper rebinds a local namedtuple, so the caller still sees the
original quantity; the rest condition and the rested quantity therefore use
the submitted qty, not the matched residual. -/
def addLimitOrder (b : Book) (side : String) (price qty : Int) (oid : String) (ts : Int)
    (fuel : Nat) : Option (String × Book) :=
  let order : Order := { id := oid, side := side, price := some price, qty := qty, timestamp := ts }
  if side = "buy" then
    match matchBuyLimit oid price qty ts fuel b with
    | none => none
    | some (_, asks2, askP2, tr2) =>
      if 0 < order.qty then
        let g := getDefault b.bids price
        some (oid,
          { bids := setVal g.2 price (g.1 ++ [{ order with qty := order.qty }]),
            asks := asks2,
            bids_prices := insertPrice b.bids_prices price true,
            asks_prices := askP2,
            trades := tr2 })
      else
        some (oid, { b with asks := asks2, asks_prices := askP2, trades := tr2 })
  else
    match matchSellLimit oid price qty ts fuel b with
    | none => none
    | some (_, bids2, bidP2, tr2) =>
      if 0 < order.qty then
        let g := getDefault b.asks price
        some (oid,
          { bids := bids2,
            asks := setVal g.2 price (g.1 ++ [{ order with qty := order.qty }]),
            bids_prices := bidP2,
            asks_prices := insertPrice b.asks_prices price false,
            trades := tr2 })
      else
        some (oid, { b with bids := bids2, bids_prices := bidP2, trades := tr2 })

/-- OrderBook.add_market_order: match only, never rest. -/
def addMarketOrder (b : Book) (side : String) (qty : Int) (oid : String) (ts : Int)
    (fuel : Nat) : Option (String × Book) :=
  if side = "buy" then
    match matchBuyMarket oid qty ts fuel b with
    | none => none
    | some (_, asks2, askP2, tr2) =>
      some (oid, { b with asks := asks2, asks_prices := askP2, trades := tr2 })
  else
    match matchSellMarket oid qty ts fuel b with
    | none => none
    | some (_, bids2, bidP2, tr2) =>
      some (oid, { b with bids := bids2, bids_prices := bidP2, trades := tr2 })

def bestBid (b : Book) : Option Int := b.bids_prices.head?

def bestAsk (b : Book) : Option Int := b.asks_prices.head?

/-- Python slice l[:d] including the negative-stop semantics: for negative d
the stop index is max(0, len + d). -/
def pySlice (l : List α) (d : Int) : List α :=
  if 0 ≤ d then l.take d.toNat else l.take (l.length - d.natAbs)

/-- One side of OrderBook.snapshot: for each sliced price, read the level
through the defaultdict (which may create an empty level) and report the
aggregate quantity. -/
def snapSideGo : List Int → PriceMap → List (Int × Int) × PriceMap
  | [], m => ([], m)
  | p :: ps, m =>
    let g := getDefault m p
    let r := snapSideGo ps g.2
    ((p, sumQty g.1) :: r.1, r.2)

/-- OrderBook.snapshot: read-only in intent, but the defaultdict reads can
mutate the maps, so the possibly-updated book is returned as well. -/
def snapshot (d : Int) (b : Book) : (List (Int × Int) × List (Int × Int)) × Book :=
  let sb := snapSideGo (pySlice b.bids_prices d) b.bids
  let sa := snapSideGo (pySlice b.asks_prices d) b.asks
  ((sb.1, sa.1), { b with bids := sb.2, asks := sa.2 })

def clearTrades (b : Book) : Book := { b with trades := [] }

/-- Public operations, for stating reachability from the empty book. -/
inductive Op where
  | limit (side : String) (price qty : Int) (oid : String) (ts : Int)
  | market (side : String) (qty : Int) (oid : String) (ts : Int)
  | snap (d : Int)
  | clear
deriving DecidableEq

def runOp (fuel : Nat) (b : Book) : Op → Option Book
  | Op.limit s p q oid ts => (addLimitOrder b s p q oid ts fuel).map Prod.snd
  | Op.market s q oid ts => (addMarketOrder b s q oid ts fuel).map Prod.snd
  | Op.snap d => some (snapshot d b).2
  | Op.clear => some (clearTrades b)

def runOps (fuel : Nat) : List Op → Book → Option Book
  | [], b => some b
  | op :: ops, b => (runOp fuel b op).bind (runOps fuel ops)

/-- All orders resting in one side map. -/
def ordersOf (m : PriceMap) : List Order := (m.map Prod.snd).flatten

/-- Ids of all orders resting anywhere in the book. -/
def restingIds (b : Book) : List String :=
  (ordersOf b.bids ++ ordersOf b.asks).map Order.id

/-- Total quantity traded by the order with the given id. -/
def tradedQty (oid : String) (tr : List Trade) : Int :=
  ((tr.filter (fun t => t.buy_id = oid ∨ t.sell_id = oid)).map Trade.qty).sum

/-- Prices that actually carry a non-empty resting level in a side map. -/
def restingPrices (m : PriceMap) : List Int :=
  (m.filter (fun e => ¬ e.2 = [])).map Prod.fst

/-- An order with its side field blanked, for comparing book states up to the
stored side string. -/
def clearSideOrder (o : Order) : Order := { o with side := "" }

def clearSidesMap (m : PriceMap) : PriceMap := m.map (fun e => (e.1, e.2.map clearSideOrder))

/-- The book with every stored side string blanked. -/
def clearSides (b : Book) : Book :=
  { b with bids := clearSidesMap b.bids, asks := clearSidesMap b.asks }

/-
Concrete states used by the counterexamples.  All are reached from the empty
book by public operations; the runOps equations in the theorems certify this.
-/

def o1res : Order := { id := "o1", side := "buy", price := some 101, qty := 5, timestamp := 1 }

def o2res : Order := { id := "o2", side := "buy", price := some 100, qty := 5, timestamp := 2 }

/-- Book after resting bids 101 x5 and 100 x5. -/
def twoBidsBook : Book :=
  { bids := [(101, [o1res]), (100, [o2res])], asks := [],
    bids_prices := [101, 100], asks_prices := [], trades := [] }

/-- The operation sequence buy-limit 101 x5, buy-limit 100 x5, market-sell 5.
The market sell drains the level at 101; _remove_price_if_empty deletes the
level from the bids map but the bisect_left call on the descending price list
returns 2, so 101 is never removed from bids_prices. -/
def bugOps : List Op :=
  [Op.limit "buy" 101 5 "o1" 1, Op.limit "buy" 100 5 "o2" 2, Op.market "sell" 5 "m1" 3]

/-- The state bugOps reaches: price 101 is still indexed but has no level. -/
def staleBook : Book :=
  { bids := [(100, [o2res])], asks := [],
    bids_prices := [101, 100], asks_prices := [],
    trades := [{ buy_id := "o1", sell_id := "m1", price := 101, qty := 5, timestamp := 3 }] }

/-- The three operations of the C9 counterexample: a sell rests 5 at 100, a
buy for 5 fully matches it, and a second sell matches the buy again. -/
def c9ops : List Op :=
  [Op.limit "sell" 100 5 "s1" 1, Op.limit "buy" 100 5 "b1" 2, Op.limit "sell" 100 5 "s2" 3]

/-- Final state of the C9 run: order b1 is gone, s2 rests as a fresh zombie,
and the log shows b1 on both trades. -/
def c9Book : Book :=
  { bids := [], asks := [(100, [{ id := "s2", side := "sell", price := some 100, qty := 5, timestamp := 3 }])],
    bids_prices := [], asks_prices := [100],
    trades := [{ buy_id := "b1", sell_id := "s1", price := 100, qty := 5, timestamp := 2 },
               { buy_id := "b1", sell_id := "s2", price := 100, qty := 5, timestamp := 3 }] }

/-- Book holding the order rested by the invalid-side call of C3: the call
succeeded and the order sits on the ask side with side string hold. -/
def holdBook : Book :=
  { bids := [], asks := [(100, [{ id := "x1", side := "hold", price := some 100, qty := 5, timestamp := 7 }])],
    bids_prices := [], asks_prices := [100], trades := [] }

/-- Book produced by the same call with side sell: identical to holdBook
except for the stored side string. -/
def holdBookSell : Book :=
  { bids := [], asks := [(100, [{ id := "x1", side := "sell", price := some 100, qty := 5, timestamp := 7 }])],
    bids_prices := [], asks_prices := [100], trades := [] }

/-- Book with ask levels 100 x5 and 101 x5, for the C4 counterexample. -/
def twoAsksBook : Book :=
  { bids := [],
    asks := [(100, [{ id := "s1", side := "sell", price := some 100, qty := 5, timestamp := 1 }]),
             (101, [{ id := "s2", side := "sell", price := some 101, qty := 5, timestamp := 2 }])],
    bids_prices := [], asks_prices := [100, 101], trades := [] }

/-- Book with a single ask level at p holding the FIFO queue [A, B]; the bid
side, bid index and trade log are arbitrary. -/
def c8Book (A B : Order) (p : Int) (bids0 : PriceMap) (bp0 : List Int) (tr0 : List Trade) : Book :=
  { bids := bids0, asks := [(p, [A, B])], bids_prices := bp0, asks_prices := [p], trades := tr0 }

/-
Theorems.
-/

/-- C1: the no-empty-level invariant.  REFUTED on the code: after bugOps the
bids Price Index still lists 101 while the bids Price Level map has no entry
at 101 at all, because _remove_price_if_empty searches the descending bids
list with an ascending bisect_left and misses the price. -/
theorem c1_index_without_level :
    runOps 100 bugOps emptyBook = some staleBook ∧
    (101 : Int) ∈ staleBook.bids_prices ∧
    lookupLevel staleBook.bids 101 = none := by
  decide

/-- C5: snapshot leaves the book unchanged.  REFUTED on the code: from the
reachable staleBook, snapshot reads the stale indexed price 101 through the
defaultdict, which inserts an empty level into the bids map, so the map key
set changes. -/
theorem c5_snapshot_mutates_book :
    runOps 100 bugOps emptyBook = some staleBook ∧
    (snapshot 5 staleBook).2.bids = [(100, [o2res]), (101, [])] ∧
    staleBook.bids = [(100, [o2res])] ∧
    ¬ (snapshot 5 staleBook).2 = staleBook := by
  decide

/-- C6: bestBid returns the maximum resting bid price.  REFUTED on the code:
in the reachable staleBook the only non-empty bid level is at 100, yet
best_bid reads the stale head of the price index and answers 101. -/
theorem c6_best_bid_is_stale :
    runOps 100 bugOps emptyBook = some staleBook ∧
    bestBid staleBook = some 101 ∧
    restingPrices staleBook.bids = [100] ∧
    ¬ (101 : Int) ∈ restingPrices staleBook.bids := by
  decide

/-- C9: lifetime quantity conservation.  REFUTED on the code: order b1 is
submitted with quantity 5, fully matches at once, but is rested again at its
full original quantity because the matching helper rebinds a local namedtuple
and the caller never sees the reduced residual.  b1 then matches a second
time; it ends fully filled (absent from the final book) having traded a total
of 10, twice its submitted quantity. -/
theorem c9_lifetime_overfill :
    runOps 100 c9ops emptyBook = some c9Book ∧
    tradedQty "b1" c9Book.trades = 10 ∧
    ¬ "b1" ∈ restingIds c9Book := by
  decide

/-- C3 counterexample: the claimed rejection does not happen.  The call with
side hold returns normally (no error channel exists in the code) and the book
is mutated: the order rests on the ask side. -/
theorem c3_counterexample :
    addLimitOrder emptyBook "hold" 100 5 "x1" 7 100 = some ("x1", holdBook) ∧
    ¬ holdBook = emptyBook := by
  decide

/-- C10 counterexample: an invalid side is processed by the sell branch, but
the resulting book is not literally equal to the sell-call book: the rested
order records the submitted side string verbatim. -/
theorem c10_counterexample :
    addLimitOrder emptyBook "hold" 100 5 "x1" 7 100 = some ("x1", holdBook) ∧
    addLimitOrder emptyBook "sell" 100 5 "x1" 7 100 = some ("x1", holdBookSell) ∧
    ¬ holdBook = holdBookSell := by
  decide

/-- C4 counterexample: snapshot with depth -1 does not return empty sides;
the Python slice prices[:-1] keeps every level but the last one, so the ask
side of the result is non-empty. -/
theorem c4_counterexample :
    runOps 100 [Op.limit "sell" 100 5 "s1" 1, Op.limit "sell" 101 5 "s2" 2] emptyBook = some twoAsksBook ∧
    (snapshot (-1) twoAsksBook).1.2 = [(100, 5)] ∧
    ¬ (snapshot (-1) twoAsksBook).1.2 = [] := by
  decide

/-- In the stuck state, price 101 heads the bids index but the bids map has
no level at 101.  A sell-side matching loop with positive residual then makes
no progress: the defaultdict read creates an empty level at 101, the drain is
a no-op, and the bisect-based removal misses 101 on the descending list, so
the loop state repeats forever and no amount of fuel finishes it. -/
theorem stuckLoopNone (oid : String) (ts : Int) (n : Nat) :
    ∀ (q : Int) (tr : List Trade), 0 < q →
      matchLoopGo (fun _ => true) (mkSellTrade oid ts) n q
        [(100, [o2res])] [101, 100] tr = none := by
  induction n with
  | zero =>
    intro q tr hq
    simp only [matchLoopGo]
    rw [if_pos ⟨hq, rfl⟩]
  | succ k ih =>
    intro q tr hq
    have step :
        matchLoopGo (fun _ => true) (mkSellTrade oid ts) (k + 1) q
          [(100, [o2res])] [101, 100] tr =
        matchLoopGo (fun _ => true) (mkSellTrade oid ts) k q
          [(100, [o2res])] [101, 100] (tr ++ []) := by
      simp only [matchLoopGo]
      rw [if_pos ⟨hq, rfl⟩]
      rfl
    rw [step, List.append_nil]
    exact ih q tr hq

/-- C2: every submission terminates.  REFUTED on the code: from the reachable
two-bid book, a market sell for 10 drains the level at 101, fails to remove
101 from the descending price index (ascending bisect_left), and then spins
forever on the stale head: deleting the freshly created empty level never
changes the state.  No fuel makes the call return. -/
theorem c2_market_sell_never_returns :
    runOps 100 [Op.limit "buy" 101 5 "o1" 1, Op.limit "buy" 100 5 "o2" 2] emptyBook =
      some twoBidsBook ∧
    ∀ fuel : Nat, addMarketOrder twoBidsBook "sell" 10 "m2" 3 fuel = none := by
  refine ⟨by decide, fun fuel => ?_⟩
  have hm : matchSellMarket "m2" 10 3 fuel twoBidsBook = none := by
    cases fuel with
    | zero => rfl
    | succ k =>
      have h1 : matchSellMarket "m2" 10 3 (k + 1) twoBidsBook =
          matchLoopGo (fun _ => true) (mkSellTrade "m2" 3) k 5 [(100, [o2res])] [101, 100]
            [{ buy_id := "o1", sell_id := "m2", price := 101, qty := 5, timestamp := 3 }] := by
        simp only [matchSellMarket, matchLoopGo]
        rw [if_pos ⟨by decide, rfl⟩]
        rfl
      rw [h1]
      exact stuckLoopNone "m2" 3 k 5 _ (by decide)
  simp only [addMarketOrder]
  rw [if_neg (by decide : ¬ ("sell" : String) = "buy"), hm]

/-- C7: a market sweep at least as large as the opposing liquidity empties
the opposing side.  REFUTED on the code: from the reachable two-bid book
(total bid liquidity 10), a market sell for 12 never returns at all - after
draining the level at 101 the stale index head makes the loop spin forever,
so the opposing side is never emptied and the call never finishes.  (The
never-rests half of the claim is not at issue; the sweep half already fails.) -/
theorem c7_market_sweep_never_returns :
    runOps 100 [Op.limit "buy" 101 5 "o1" 1, Op.limit "buy" 100 5 "o2" 2] emptyBook =
      some twoBidsBook ∧
    sumQty (ordersOf twoBidsBook.bids) = 10 ∧
    ∀ fuel : Nat, addMarketOrder twoBidsBook "sell" 12 "m3" 4 fuel = none := by
  refine ⟨by decide, by decide, fun fuel => ?_⟩
  have hm : matchSellMarket "m3" 12 4 fuel twoBidsBook = none := by
    cases fuel with
    | zero => rfl
    | succ k =>
      have h1 : matchSellMarket "m3" 12 4 (k + 1) twoBidsBook =
          matchLoopGo (fun _ => true) (mkSellTrade "m3" 4) k 7 [(100, [o2res])] [101, 100]
            [{ buy_id := "o1", sell_id := "m3", price := 101, qty := 5, timestamp := 4 }] := by
        simp only [matchSellMarket, matchLoopGo]
        rw [if_pos ⟨by decide, rfl⟩]
        rfl
      rw [h1]
      exact stuckLoopNone "m3" 4 k 7 _ (by decide)
  simp only [addMarketOrder]
  rw [if_neg (by decide : ¬ ("sell" : String) = "buy"), hm]

/-- Helper: the matching loop is the identity when the loop condition fails
at entry, whatever the fuel. -/
theorem matchLoopGo_noCross (cross : Int → Bool) (mk : Int → Int → Order → Trade)
    (fuel : Nat) (qty : Int) (m : PriceMap) (l : List Int) (tr : List Trade)
    (h : ¬ (0 < qty ∧ crossHead cross l = true)) :
    matchLoopGo cross mk fuel qty m l tr = some (qty, m, l, tr) := by
  cases fuel with
  | zero => simp only [matchLoopGo]; rw [if_neg h]
  | succ k => simp only [matchLoopGo]; rw [if_neg h]

/-- Helper: a non-positive submission quantity makes add_limit_order a no-op
that still returns the id. -/
theorem addLimitOrder_nonpos (b : Book) (side : String) (price qty : Int) (oid : String)
    (ts : Int) (fuel : Nat) (hq : qty ≤ 0) :
    addLimitOrder b side price qty oid ts fuel = some (oid, b) := by
  have hnc : ∀ (c : Int → Bool) (l : List Int), ¬ (0 < qty ∧ crossHead c l = true) :=
    fun c l hh => absurd hh.1 (by omega)
  have hq2 : ¬ (0 < qty) := by omega
  by_cases hs : side = "buy"
  · subst hs
    rw [addLimitOrder, if_pos (rfl : ("buy" : String) = "buy"), matchBuyLimit,
      matchLoopGo_noCross _ _ _ _ _ _ _ (hnc _ _)]
    dsimp only
    rw [if_neg hq2]
  · rw [addLimitOrder, if_neg hs, matchSellLimit,
      matchLoopGo_noCross _ _ _ _ _ _ _ (hnc _ _)]
    dsimp only
    rw [if_neg hq2]

/-- Helper: a non-positive market quantity is likewise a no-op. -/
theorem addMarketOrder_nonpos (b : Book) (side : String) (qty : Int) (oid : String)
    (ts : Int) (fuel : Nat) (hq : qty ≤ 0) :
    addMarketOrder b side qty oid ts fuel = some (oid, b) := by
  have hnc : ∀ (c : Int → Bool) (l : List Int), ¬ (0 < qty ∧ crossHead c l = true) :=
    fun c l hh => absurd hh.1 (by omega)
  by_cases hs : side = "buy"
  · subst hs
    rw [addMarketOrder, if_pos (rfl : ("buy" : String) = "buy"), matchBuyMarket,
      matchLoopGo_noCross _ _ _ _ _ _ _ (hnc _ _)]
  · rw [addMarketOrder, if_neg hs, matchSellMarket,
      matchLoopGo_noCross _ _ _ _ _ _ _ (hnc _ _)]

/-- Helper: one snapshot side reports exactly one row per sliced price. -/
theorem snapSideGo_length (ps : List Int) : ∀ m : PriceMap, (snapSideGo ps m).1.length = ps.length := by
  induction ps with
  | nil => intro m; rfl
  | cons p ps ih => intro m; simp [snapSideGo, ih]

/-- C3 amended: the code performs no validation.  An unrecognized side is
processed by the sell branch and can mutate the book (the concrete hold call
rests an ask), and a non-positive quantity is a silent no-op: the call
returns the id normally, no error is surfaced on either path. -/
theorem c3_no_validation (b : Book) (side : String) (price qty : Int) (oid : String)
    (ts : Int) (fuel : Nat) (hq : qty ≤ 0) :
    addLimitOrder b side price qty oid ts fuel = some (oid, b) ∧
    addMarketOrder b side qty oid ts fuel = some (oid, b) ∧
    addLimitOrder emptyBook "hold" 100 5 "x1" 7 100 = some ("x1", holdBook) :=
  ⟨addLimitOrder_nonpos b side price qty oid ts fuel hq,
   addMarketOrder_nonpos b side qty oid ts fuel hq,
   by decide⟩

theorem c3_no_validation_witness :
    addLimitOrder emptyBook "hold" 100 0 "w" 0 5 = some ("w", emptyBook) ∧
    addMarketOrder emptyBook "hold" 0 "w" 0 5 = some ("w", emptyBook) ∧
    addLimitOrder emptyBook "hold" 100 5 "x1" 7 100 = some ("x1", holdBook) :=
  c3_no_validation emptyBook "hold" 100 0 "w" 0 5 (by decide)

/-- C4 amended: snapshot with depth 0 returns empty sides, and snapshot with
negative depth d returns, per side, all levels except the last abs d ones
(Python slice semantics) - empty only when the side holds at most abs d
levels. -/
theorem c4_amended (b : Book) (d : Int) (hd : d < 0) :
    (snapshot 0 b).1.1 = [] ∧ (snapshot 0 b).1.2 = [] ∧
    (snapshot d b).1.1.length = b.bids_prices.length - d.natAbs ∧
    (snapshot d b).1.2.length = b.asks_prices.length - d.natAbs := by
  have h0 : ¬ (0 ≤ d) := by omega
  refine ⟨by simp [snapshot, pySlice, snapSideGo], by simp [snapshot, pySlice, snapSideGo], ?_, ?_⟩
  · simp [snapshot, snapSideGo_length, pySlice, h0]
  · simp [snapshot, snapSideGo_length, pySlice, h0]

theorem c4_amended_witness :
    (snapshot 0 twoAsksBook).1.1 = [] ∧ (snapshot 0 twoAsksBook).1.2 = [] ∧
    (snapshot (-1) twoAsksBook).1.1.length = twoAsksBook.bids_prices.length - (-1 : Int).natAbs ∧
    (snapshot (-1) twoAsksBook).1.2.length = twoAsksBook.asks_prices.length - (-1 : Int).natAbs :=
  c4_amended twoAsksBook (-1) (by decide)

/-- Helper: blanking side strings commutes with a dict assignment. -/
theorem clearSidesMap_setVal (p : Int) (v : Level) :
    ∀ m : PriceMap, clearSidesMap (setVal m p v) = setVal (clearSidesMap m) p (v.map clearSideOrder) := by
  intro m
  induction m with
  | nil => rfl
  | cons e rest ih =>
    obtain ⟨q, w⟩ := e
    simp only [clearSidesMap] at ih
    simp only [clearSidesMap]
    by_cases h : q = p
    · simp [setVal, h]
    · simp [setVal, h, ih]

/-- C10 amended: any side other than buy is processed exactly like sell - the
market call gives a literally identical result, and the limit call gives an
identical result up to the side string recorded on the rested order (compared
after blanking stored side strings on both results). -/
theorem c10_invalid_side_is_sell (b : Book) (side : String) (price qty : Int) (oid : String)
    (ts : Int) (fuel : Nat) (hs : ¬ side = "buy") :
    addMarketOrder b side qty oid ts fuel = addMarketOrder b "sell" qty oid ts fuel ∧
    (addLimitOrder b side price qty oid ts fuel).map (fun r => (r.1, clearSides r.2)) =
      (addLimitOrder b "sell" price qty oid ts fuel).map (fun r => (r.1, clearSides r.2)) := by
  constructor
  · rw [addMarketOrder, if_neg hs, addMarketOrder, if_neg (by decide : ¬ ("sell" : String) = "buy")]
  · rw [addLimitOrder, if_neg hs, addLimitOrder, if_neg (by decide : ¬ ("sell" : String) = "buy")]
    cases h : matchSellLimit oid price qty ts fuel b with
    | none => rfl
    | some v =>
      obtain ⟨q2, bids2, bidP2, tr2⟩ := v
      dsimp only
      by_cases h0 : 0 < qty
      · rw [if_pos h0, if_pos h0]
        simp [clearSides, clearSidesMap_setVal, clearSideOrder]
      · rw [if_neg h0, if_neg h0]

theorem c10_invalid_side_is_sell_witness :
    addMarketOrder emptyBook "hold" 5 "w" 0 5 = addMarketOrder emptyBook "sell" 5 "w" 0 5 ∧
    (addLimitOrder emptyBook "hold" 100 5 "w" 0 5).map (fun r => (r.1, clearSides r.2)) =
      (addLimitOrder emptyBook "sell" 100 5 "w" 0 5).map (fun r => (r.1, clearSides r.2)) :=
  c10_invalid_side_is_sell emptyBook "hold" 100 5 "w" 0 5 (by decide)

/-- Helper: one loop iteration, exposed as an equation. -/
theorem matchLoopGo_step (cross : Int → Bool) (mk : Int → Int → Order → Trade) (n : Nat)
    (qty : Int) (m : PriceMap) (l : List Int) (tr : List Trade)
    (hq : 0 < qty) (hc : crossHead cross l = true) :
    matchLoopGo cross mk (n + 1) qty m l tr =
      matchLoopGo cross mk n
        (drainLevel (mk (l.headD 0)) qty (getDefault m (l.headD 0)).1).1
        (removePriceIfEmpty (setVal (getDefault m (l.headD 0)).2 (l.headD 0)
            (drainLevel (mk (l.headD 0)) qty (getDefault m (l.headD 0)).1).2.1) l (l.headD 0)).1
        (removePriceIfEmpty (setVal (getDefault m (l.headD 0)).2 (l.headD 0)
            (drainLevel (mk (l.headD 0)) qty (getDefault m (l.headD 0)).1).2.1) l (l.headD 0)).2
        (tr ++ (drainLevel (mk (l.headD 0)) qty (getDefault m (l.headD 0)).1).2.2) := by
  simp only [matchLoopGo]
  rw [if_pos ⟨hq, hc⟩]

/-- Helper: a fill smaller than the head order reduces the head in place and
exhausts the incoming quantity; the loop then stops after this single fill. -/
theorem drainLevel_belowTop (mk : Int → Order → Trade) (q : Int) (top : Order) (rest : List Order)
    (hq : 0 < q) (hlt : q < top.qty) :
    drainLevel mk q (top :: rest) = (0, { top with qty := top.qty - q } :: rest, [mk q top]) := by
  simp only [drainLevel]
  rw [if_pos hq, min_eq_left hlt.le, if_neg (by omega : ¬ (top.qty - q = 0))]
  simp

/-- Helper: a fill at least the head order consumes the head entirely and
recurses on the tail with the reduced quantity. -/
theorem drainLevel_full (mk : Int → Order → Trade) (q : Int) (top : Order) (rest : List Order)
    (hq : 0 < q) (hge : top.qty ≤ q) :
    drainLevel mk q (top :: rest) =
      ((drainLevel mk (q - top.qty) rest).1,
       (drainLevel mk (q - top.qty) rest).2.1,
       mk top.qty top :: (drainLevel mk (q - top.qty) rest).2.2) := by
  simp only [drainLevel]
  rw [if_pos hq, min_eq_right hge, if_pos (sub_self top.qty)]

/-- Helper: projection of a buy-limit call to its ask side and trade log,
once the matcher result is known (the original quantity is positive, so the
source also rests the incoming order on the bid side - not projected here). -/
theorem addLimit_buy_shape (b : Book) (price qty : Int) (oid : String) (ts : Int) (fuel : Nat)
    (q2 : Int) (asks2 : PriceMap) (askP2 : List Int) (tr2 : List Trade)
    (hm : matchBuyLimit oid price qty ts fuel b = some (q2, asks2, askP2, tr2))
    (hq : 0 < qty) :
    (addLimitOrder b "buy" price qty oid ts fuel).map (fun r => (r.2.asks, r.2.trades)) =
      some (asks2, tr2) := by
  rw [addLimitOrder, if_pos (rfl : ("buy" : String) = "buy"), hm]
  dsimp only
  rw [if_pos hq]
  rfl

/-- C8: FIFO time priority within a price level.  With resting orders A then
B queued at price p (in that order) and an incoming crossing buy for q: if
q is less than the residual of A, the only fill is against A for q and B is
untouched; otherwise the first fill consumes A entirely (quantity min q A.qty
= A.qty) and only then, if residual remains, is B filled.  The equation gives
the full ask side and trade log of the call. -/
theorem c8_fifo_priority (A B : Order) (p pin q : Int) (oid : String) (ts : Int)
    (bids0 : PriceMap) (bp0 : List Int) (tr0 : List Trade)
    (ha : 0 < A.qty) (hb : 0 < B.qty) (hq : 0 < q) (hcross : p ≤ pin) :
    (addLimitOrder (c8Book A B p bids0 bp0 tr0) "buy" pin q oid ts 2).map
        (fun r => (r.2.asks, r.2.trades)) =
      some
        (if q < A.qty then [(p, [{ A with qty := A.qty - q }, B])]
         else if q - A.qty = 0 then [(p, [B])]
         else if q - A.qty < B.qty then [(p, [{ B with qty := B.qty - (q - A.qty) }])]
         else [],
         tr0 ++
           ({ buy_id := oid, sell_id := A.id, price := p, qty := min q A.qty, timestamp := ts } ::
             (if q - A.qty ≤ 0 then []
              else [{ buy_id := oid, sell_id := B.id, price := p, qty := min (q - A.qty) B.qty,
                      timestamp := ts }]))) := by
  have hc : crossHead (fun bp => decide (bp ≤ pin)) [p] = true := by
    simp [crossHead, hcross]
  have hgd : getDefault [(p, [A, B])] p = ([A, B], [(p, [A, B])]) := by
    simp [getDefault, lookupLevel]
  by_cases hlt : q < A.qty
  · have key : matchBuyLimit oid pin q ts 2 (c8Book A B p bids0 bp0 tr0) =
        some (0, [(p, [{ A with qty := A.qty - q }, B])], [p],
          tr0 ++ [mkBuyTrade oid ts p q A]) := by
      rw [matchBuyLimit]
      dsimp only [c8Book]
      rw [show (2 : Nat) = 1 + 1 from rfl, matchLoopGo_step _ _ 1 _ _ _ _ hq hc]
      simp only [List.headD_cons]
      rw [hgd]
      dsimp only
      rw [drainLevel_belowTop _ q A [B] hq hlt]
      dsimp only
      simp [setVal, removePriceIfEmpty, getDefault, lookupLevel, matchLoopGo]
    rw [addLimit_buy_shape _ _ _ _ _ _ _ _ _ _ key hq]
    simp [mkBuyTrade, hlt, min_eq_left hlt.le, show q - A.qty ≤ 0 from by omega]
  · have hge : A.qty ≤ q := by omega
    by_cases heq : q - A.qty = 0
    · have key : matchBuyLimit oid pin q ts 2 (c8Book A B p bids0 bp0 tr0) =
          some (0, [(p, [B])], [p], tr0 ++ [mkBuyTrade oid ts p A.qty A]) := by
        rw [matchBuyLimit]
        dsimp only [c8Book]
        rw [show (2 : Nat) = 1 + 1 from rfl, matchLoopGo_step _ _ 1 _ _ _ _ hq hc]
        simp only [List.headD_cons]
        rw [hgd]
        dsimp only
        rw [drainLevel_full _ q A [B] hq hge, heq]
        simp [drainLevel, setVal, removePriceIfEmpty, getDefault, lookupLevel, matchLoopGo]
      rw [addLimit_buy_shape _ _ _ _ _ _ _ _ _ _ key hq]
      simp [mkBuyTrade, hlt, heq, min_eq_right hge]
    · by_cases hblt : q - A.qty < B.qty
      · have key : matchBuyLimit oid pin q ts 2 (c8Book A B p bids0 bp0 tr0) =
            some (0, [(p, [{ B with qty := B.qty - (q - A.qty) }])], [p],
              tr0 ++ [mkBuyTrade oid ts p A.qty A, mkBuyTrade oid ts p (q - A.qty) B]) := by
          rw [matchBuyLimit]
          dsimp only [c8Book]
          rw [show (2 : Nat) = 1 + 1 from rfl, matchLoopGo_step _ _ 1 _ _ _ _ hq hc]
          simp only [List.headD_cons]
          rw [hgd]
          dsimp only
          rw [drainLevel_full _ q A [B] hq hge,
            drainLevel_belowTop _ (q - A.qty) B [] (by omega) hblt]
          simp [setVal, removePriceIfEmpty, getDefault, lookupLevel, matchLoopGo]
        rw [addLimit_buy_shape _ _ _ _ _ _ _ _ _ _ key hq]
        simp [mkBuyTrade, hlt, heq, hblt, min_eq_right hge,
          min_eq_left hblt.le, show ¬ (q - A.qty ≤ 0) from by omega]
      · have hble : B.qty ≤ q - A.qty := by omega
        have key : matchBuyLimit oid pin q ts 2 (c8Book A B p bids0 bp0 tr0) =
            some (q - A.qty - B.qty, [], [],
              tr0 ++ [mkBuyTrade oid ts p A.qty A, mkBuyTrade oid ts p B.qty B]) := by
          rw [matchBuyLimit]
          dsimp only [c8Book]
          rw [show (2 : Nat) = 1 + 1 from rfl, matchLoopGo_step _ _ 1 _ _ _ _ hq hc]
          simp only [List.headD_cons]
          rw [hgd]
          dsimp only
          rw [drainLevel_full _ q A [B] hq hge,
            drainLevel_full _ (q - A.qty) B [] (by omega) hble]
          simp [drainLevel, setVal, removePriceIfEmpty, getDefault, lookupLevel, eraseKey,
            removeFromList, bisectLeft, bisectLeftGo, eraseAt, matchLoopGo, crossHead]
        rw [addLimit_buy_shape _ _ _ _ _ _ _ _ _ _ key hq]
        simp [mkBuyTrade, hlt, heq, hblt, min_eq_right hge, min_eq_right hble,
          show ¬ (q - A.qty ≤ 0) from by omega]

theorem c8_fifo_priority_witness :
    (addLimitOrder
        (c8Book { id := "A", side := "sell", price := some 100, qty := 5, timestamp := 1 }
          { id := "B", side := "sell", price := some 100, qty := 7, timestamp := 2 }
          100 [] [] [])
        "buy" 100 3 "in" 9 2).map (fun r => (r.2.asks, r.2.trades)) =
      some ([(100, [{ id := "A", side := "sell", price := some 100, qty := 2, timestamp := 1 },
                    { id := "B", side := "sell", price := some 100, qty := 7, timestamp := 2 }])],
            [{ buy_id := "in", sell_id := "A", price := 100, qty := 3, timestamp := 9 }]) :=
  c8_fifo_priority
    { id := "A", side := "sell", price := some 100, qty := 5, timestamp := 1 }
    { id := "B", side := "sell", price := some 100, qty := 7, timestamp := 2 }
    100 100 3 "in" 9 [] [] [] (by decide) (by decide) (by decide) (by decide)
